import Mathlib

/-!
Verification of the TAPI linker-interface-file engine
(`include/tapi/LinkerInterfaceFile.h`).

The repository ships the public header only; the enums below are
transcribed from it, and every operation (sniffer, schema parser,
architecture resolver, version-sensitive field resolver, interface view,
equivalence checker) is modelled from the specification, as noted on each
definition.
-/

namespace Tapi

/-- `cpu_type_t` from the header: a machine integer naming the cpu
architecture family. -/
abbrev cpu_type_t := Int

/-- `cpu_subtype_t` from the header: a machine integer naming the cpu
sub-architecture. -/
abbrev cpu_subtype_t := Int

/-- The `Platform` enum from the header (unknown / macOS / iOS / watchOS /
tvOS). -/
inductive Platform where
  | Unknown
  | OSX
  | iOS
  | watchOS
  | tvOS
deriving DecidableEq

/-- The `ObjCConstraint` enum from the header. -/
inductive ObjCConstraint where
  | None
  | Retain_Release
  | Retain_Release_For_Simulator
  | Retain_Release_Or_GC
  | GC
deriving DecidableEq

/-- The `FileType` enum from the header: unsupported, TBD v1 or TBD v2. -/
inductive FileType where
  | Unsupported
  | TBD_V1
  | TBD_V2
deriving DecidableEq

/-- The `CpuSubTypeMatching` enum from the header: ABI-compatible fallback
or exact subtype matching. -/
inductive CpuSubTypeMatching where
  | ABI_Compatible
  | Exact
deriving DecidableEq

/-- Modelled from the spec: `PackedVersion32` is a 32-bit value encoding
major (16 bits), minor (8 bits), patch (8 bits), totally ordered.  We carry
it as a `Nat` below `2^32`; packing reduces each field modulo its width. -/
def packVersion (major minor patch : Nat) : Nat :=
  (major % 65536) * 65536 + (minor % 256) * 256 + patch % 256

/-- Major component of a packed 32-bit version. -/
def versionMajor (v : Nat) : Nat := v / 65536 % 65536

/-- Minor component of a packed 32-bit version. -/
def versionMinor (v : Nat) : Nat := v / 256 % 256

/-- Patch component of a packed 32-bit version. -/
def versionPatch (v : Nat) : Nat := v % 256

/-- Modelled from the spec: a symbol's flag set
(weak-defined / weak-referenced / thread-local; all clear means a regular
symbol). -/
structure SymbolFlags where
  weakDefined : Bool
  weakReferenced : Bool
  threadLocal : Bool
deriving DecidableEq

/-- Modelled from the spec: a `Symbol` is a name plus its flag set. -/
structure Symbol where
  name : String
  flags : SymbolFlags
deriving DecidableEq

/-- Modelled from the spec: one version-conditioned install-name entry of a
slice: when the requested minimum OS version reaches `version`, the install
name `name` replaces the unconditional one. -/
structure InstallNameEntry where
  version : Nat
  name : String
deriving DecidableEq

/-- Modelled from the spec: a `Slice` is one platform+architecture
combination's linking contract. -/
structure Slice where
  platform : Platform
  cpuType : cpu_type_t
  cpuSubType : cpu_subtype_t
  installName : String
  /-- Version-conditioned install-name overrides, ordered by version
  ascending. -/
  installNames : List InstallNameEntry
  currentVersion : Nat
  compatibilityVersion : Nat
  swiftVersion : Nat
  objcConstraint : ObjCConstraint
  twoLevelNamespace : Bool
  appExtensionSafe : Bool
  parentFrameworkName : Option String
  exports : List Symbol
  undefineds : List Symbol
  allowableClients : List String
  reexportedLibraries : List String
  ignoreExports : List String
deriving DecidableEq

/-- Modelled from the spec: a `Document` is the fully parsed stub — the
schema version it was parsed from plus its ordered sequence of slices. -/
structure Document where
  fileType : FileType
  slices : List Slice
deriving DecidableEq

/-!  Architecture Resolver (spec section 4.3).  -/

/-- Modelled from the spec: find the slice whose cpu type and cpu subtype
both equal the requested ones exactly (the first such slice in document
order). -/
def findExact (slices : List Slice) (cpuType : cpu_type_t)
    (cpuSubType : cpu_subtype_t) : Option Slice :=
  slices.find? (fun s => s.cpuType == cpuType && s.cpuSubType == cpuSubType)

/-- Modelled from the spec: walk the compatibility list (closest declared
compatible subtype first) and return the first slice exactly matching one of
its entries. -/
def firstCompat (slices : List Slice) (cpuType : cpu_type_t) :
    List cpu_subtype_t → Option Slice
  | [] => none
  | st :: rest =>
    match findExact slices cpuType st with
    | some s => some s
    | none => firstCompat slices cpuType rest

/-- Modelled from the spec: the architecture resolver.  The cpu type must
match exactly in both modes.  A slice whose subtype matches exactly always
wins; otherwise `Exact` mode fails, while `ABI_Compatible` mode falls back
to the closest subtype the compatibility table `compat` declares compatible
with the requested one, failing when none qualifies. -/
def resolve (compat : cpu_type_t → cpu_subtype_t → List cpu_subtype_t)
    (doc : Document) (cpuType : cpu_type_t) (cpuSubType : cpu_subtype_t)
    (mode : CpuSubTypeMatching) : Option Slice :=
  match findExact doc.slices cpuType cpuSubType with
  | some s => some s
  | none =>
    match mode with
    | .Exact => none
    | .ABI_Compatible => firstCompat doc.slices cpuType (compat cpuType cpuSubType)

/-- Modelled from the spec: the static, immutable cpu-subtype compatibility
table, keyed by cpu type; each list is ordered with the closest declared
compatible subtype first.  The spec fixes the table's shape but not its
entries; the entries here are the classic Mach-O fallbacks (x86_64h to
x86_64, armv7s to armv7 to armv6). -/
def abiCompatTable : cpu_type_t → cpu_subtype_t → List cpu_subtype_t :=
  fun cpuType cpuSubType =>
    if cpuType == 16777223 then
      (if cpuSubType == 8 then [3] else [])
    else if cpuType == 12 then
      (if cpuSubType == 11 then [9, 6]
       else if cpuSubType == 9 then [6]
       else [])
    else []

/-!  Version-Sensitive Field Resolver (spec section 4.4).  -/

/-- Modelled from the spec: among the slice's version-conditioned
install-name entries (ordered by version ascending), pick the greatest
entry whose threshold version is at most `minOSVersion`; `none` when no
entry qualifies. -/
def selectInstallName (entries : List InstallNameEntry) (minOSVersion : Nat) :
    Option InstallNameEntry :=
  (entries.filter (fun e => e.version ≤ minOSVersion)).getLast?

/-!  Interface View (spec section 4.5, accessors of the header's
`LinkerInterfaceFile` class).  -/

/-- Modelled from the spec: the immutable caller-facing result object — a
resolved projection of exactly one slice plus the document-level file type.
Only the lists are stored; the has-X booleans are derived accessors. -/
structure LinkerInterfaceFile where
  fileType : FileType
  platform : Platform
  installName : String
  installNameIsVersionSpecific : Bool
  currentVersion : Nat
  compatibilityVersion : Nat
  swiftVersion : Nat
  objcConstraint : ObjCConstraint
  twoLevelNamespace : Bool
  appExtensionSafe : Bool
  parentFrameworkName : String
  allowableClients : List String
  reexportedLibraries : List String
  ignoreExports : List String
  exports : List Symbol
  undefineds : List Symbol
deriving DecidableEq

/-- Modelled from the spec: build the interface view from the document's
file type, the resolved slice and the caller's minimum OS version.  The
install name is version-adjusted by `selectInstallName`; absence of a
parent framework is exposed as the empty string. -/
def mkView (fileType : FileType) (s : Slice) (minOSVersion : Nat) :
    LinkerInterfaceFile :=
  let adjusted := selectInstallName s.installNames minOSVersion
  { fileType := fileType
    platform := s.platform
    installName :=
      match adjusted with
      | some e => e.name
      | none => s.installName
    installNameIsVersionSpecific := adjusted.isSome
    currentVersion := s.currentVersion
    compatibilityVersion := s.compatibilityVersion
    swiftVersion := s.swiftVersion
    objcConstraint := s.objcConstraint
    twoLevelNamespace := s.twoLevelNamespace
    appExtensionSafe := s.appExtensionSafe
    parentFrameworkName :=
      match s.parentFrameworkName with
      | some n => n
      | none => ""
    allowableClients := s.allowableClients
    reexportedLibraries := s.reexportedLibraries
    ignoreExports := s.ignoreExports
    exports := s.exports
    undefineds := s.undefineds }

/-- Accessor `getFileType` from the header. -/
def getFileType (f : LinkerInterfaceFile) : FileType := f.fileType

/-- Accessor `getPlatform` from the header. -/
def getPlatform (f : LinkerInterfaceFile) : Platform := f.platform

/-- Accessor `getInstallName` from the header. -/
def getInstallName (f : LinkerInterfaceFile) : String := f.installName

/-- Accessor `isInstallNameVersionSpecific` from the header: true when the
install name has been adjusted for the provided minimum OS version. -/
def isInstallNameVersionSpecific (f : LinkerInterfaceFile) : Bool :=
  f.installNameIsVersionSpecific

/-- Accessor `getCurrentVersion` from the header. -/
def getCurrentVersion (f : LinkerInterfaceFile) : Nat := f.currentVersion

/-- Accessor `getCompatibilityVersion` from the header. -/
def getCompatibilityVersion (f : LinkerInterfaceFile) : Nat :=
  f.compatibilityVersion

/-- Accessor `getSwiftVersion` from the header. -/
def getSwiftVersion (f : LinkerInterfaceFile) : Nat := f.swiftVersion

/-- Accessor `getObjCConstraint` from the header. -/
def getObjCConstraint (f : LinkerInterfaceFile) : ObjCConstraint :=
  f.objcConstraint

/-- Accessor `hasTwoLevelNamespace` from the header. -/
def hasTwoLevelNamespace (f : LinkerInterfaceFile) : Bool :=
  f.twoLevelNamespace

/-- Accessor `isApplicationExtensionSafe` from the header. -/
def isApplicationExtensionSafe (f : LinkerInterfaceFile) : Bool :=
  f.appExtensionSafe

/-- Accessor `hasAllowableClients` from the header; modelled from the spec:
derived purely from whether the allowable-clients list is non-empty. -/
def hasAllowableClients (f : LinkerInterfaceFile) : Bool :=
  !f.allowableClients.isEmpty

/-- Accessor `hasReexportedLibraries` from the header; modelled from the
spec: derived purely from whether the re-exported-libraries list is
non-empty. -/
def hasReexportedLibraries (f : LinkerInterfaceFile) : Bool :=
  !f.reexportedLibraries.isEmpty

/-- Accessor `hasWeakDefinedExports` from the header; modelled from the
spec: derived purely from whether some exported symbol carries the
weak-defined flag. -/
def hasWeakDefinedExports (f : LinkerInterfaceFile) : Bool :=
  f.exports.any (fun s => s.flags.weakDefined)

/-- Accessor `getParentFrameworkName` from the header: the umbrella
framework's name if it exists, otherwise an empty string. -/
def getParentFrameworkName (f : LinkerInterfaceFile) : String :=
  f.parentFrameworkName

/-- Accessor `allowableClients` from the header. -/
def allowableClients (f : LinkerInterfaceFile) : List String :=
  f.allowableClients

/-- Accessor `reexportedLibraries` from the header. -/
def reexportedLibraries (f : LinkerInterfaceFile) : List String :=
  f.reexportedLibraries

/-- Accessor `ignoreExports` from the header. -/
def ignoreExports (f : LinkerInterfaceFile) : List String :=
  f.ignoreExports

/-- Accessor `exports` from the header. -/
def exports (f : LinkerInterfaceFile) : List Symbol := f.exports

/-- Accessor `undefineds` from the header. -/
def undefineds (f : LinkerInterfaceFile) : List Symbol := f.undefineds

/-!  Decimal numerals, used by version-string parsing and rendering.  -/

/-- Is `c` a decimal digit character. -/
def isDigitChar (c : Char) : Bool := 48 ≤ c.toNat && c.toNat ≤ 57

/-- Numeric value of a decimal digit character. -/
def digitVal (c : Char) : Nat := c.toNat - 48

/-- Decimal digit character for a value below ten. -/
def digitChar (d : Nat) : Char := Char.ofNat (48 + d % 10)

/-- Value of a most-significant-first decimal digit string. -/
def digitsToNat (l : List Char) : Nat :=
  l.foldl (fun acc c => acc * 10 + digitVal c) 0

/-- Decimal digits, least significant first, with explicit recursion fuel
(the callers below always supply enough fuel). -/
def revDigitsFuel : Nat → Nat → List Char
  | 0, _ => []
  | fuel + 1, n =>
    if n = 0 then [] else digitChar (n % 10) :: revDigitsFuel fuel (n / 10)

/-- Decimal digits of `n`, least significant first (empty for zero). -/
def natToRevDigits (n : Nat) : List Char := revDigitsFuel n n

/-- Render `n` in decimal. -/
def renderNat (n : Nat) : String :=
  if n = 0 then "0" else String.mk (natToRevDigits n).reverse

/-- Parse a non-empty all-digit character string as a decimal numeral. -/
def parseDecimal (l : List Char) : Option Nat :=
  if l.isEmpty then none
  else if l.all isDigitChar then some (digitsToNat l)
  else none

/-!  Version strings (spec section 4.2: version scalars are
`major.minor.patch` decimal strings; malformed ones are rejected).  -/

/-- Modelled from the spec: parse one version component, rejecting values
that overflow the component's field width. -/
def parseComponent (l : List Char) (bound : Nat) : Option Nat :=
  match parseDecimal l with
  | some n => if n ≤ bound then some n else none
  | none => none

/-- Modelled from the spec: parse a version string of shape `major`,
`major.minor` or `major.minor.patch` into a packed 32-bit version;
anything else is malformed. -/
def parseVersionString (s : String) : Option Nat :=
  match s.toList.splitOn '.' with
  | [a] =>
    match parseComponent a 65535 with
    | none => none
    | some x => some (packVersion x 0 0)
  | [a, b] =>
    match parseComponent a 65535, parseComponent b 255 with
    | some x, some y => some (packVersion x y 0)
    | _, _ => none
  | [a, b, c] =>
    match parseComponent a 65535, parseComponent b 255,
        parseComponent c 255 with
    | some x, some y, some z => some (packVersion x y z)
    | _, _, _ => none
  | _ => none

/-- Render a packed 32-bit version as a `major.minor.patch` string. -/
def renderVersion (v : Nat) : String :=
  String.mk (List.intercalate ['.']
    [(renderNat (versionMajor v)).toList,
     (renderNat (versionMinor v)).toList,
     (renderNat (versionPatch v)).toList])

/-!  Raw (pre-validation) structural form of a stub, and the Schema Parser
(spec section 4.2).  The parser's input is the structural content of the
buffer: keys, nesting and scalar strings, before any semantic
validation.  -/

/-- Modelled from the spec: a version-conditioned install-name entry as it
appears in the text, its threshold version still a scalar string. -/
structure RawInstallNameEntry where
  version : String
  name : String
deriving DecidableEq

/-- Modelled from the spec: one slice as it appears structurally in the
buffer, before validation: platform, Objective-C constraint and versions
are still scalar strings, and flags are still a list of flag keys. -/
structure RawSlice where
  platform : String
  cpuType : Int
  cpuSubType : Int
  installName : String
  installNames : List RawInstallNameEntry
  currentVersion : String
  compatibilityVersion : String
  swiftVersion : Nat
  objcConstraint : String
  flags : List String
  parentFrameworkName : Option String
  exports : List Symbol
  undefineds : List Symbol
  allowableClients : List String
  reexportedLibraries : List String
  ignoreExports : List String
deriving DecidableEq

/-- Modelled from the spec: the structural content of a candidate stub
buffer — its schema tag (the magic marker) and its slices. -/
structure RawDocument where
  tag : String
  slices : List RawSlice
deriving DecidableEq

/-- Modelled from the spec: map the schema tag to the file type; unknown
or future schema versions fail cleanly. -/
def tagFileType (tag : String) : Except String FileType :=
  if tag = "!tapi-tbd-v1" then .ok .TBD_V1
  else if tag = "!tapi-tbd-v2" then .ok .TBD_V2
  else .error "unsupported file type"

/-- Modelled from the spec: decode a platform key, rejecting unknown enum
values rather than substituting a default. -/
def parsePlatform (s : String) : Except String Platform :=
  if s = "unknown" then .ok .Unknown
  else if s = "macosx" then .ok .OSX
  else if s = "ios" then .ok .iOS
  else if s = "watchos" then .ok .watchOS
  else if s = "tvos" then .ok .tvOS
  else .error "unknown platform value"

/-- Modelled from the spec: decode an Objective-C constraint key, rejecting
unknown enum values rather than substituting a default. -/
def parseObjCConstraint (s : String) : Except String ObjCConstraint :=
  if s = "none" then .ok .None
  else if s = "retain_release" then .ok .Retain_Release
  else if s = "retain_release_for_simulator" then
    .ok .Retain_Release_For_Simulator
  else if s = "retain_release_or_gc" then .ok .Retain_Release_Or_GC
  else if s = "gc" then .ok .GC
  else .error "unknown objc constraint value"

/-- Flag keys understood by schema revision 1 (positive encoding). -/
def flagsV1 : List String := ["two-level-namespace", "app-extension-safe"]

/-- Flag keys understood by schema revision 2 (negative encoding). -/
def flagsV2 : List String := ["flat-namespace", "not-app-extension-safe"]

/-- Modelled from the spec: decode the flags list into the two-level
namespace and app-extension-safe booleans.  The two supported schema
revisions use different flag encodings: revision 1 lists the properties
that hold, revision 2 lists the properties that fail; unknown flag keys
are rejected. -/
def parseFlags (ft : FileType) (flags : List String) :
    Except String (Bool × Bool) :=
  match ft with
  | .TBD_V1 =>
    if flags.all (fun f => flagsV1.contains f) then
      .ok (flags.contains "two-level-namespace",
           flags.contains "app-extension-safe")
    else .error "unknown flag value"
  | .TBD_V2 =>
    if flags.all (fun f => flagsV2.contains f) then
      .ok (!flags.contains "flat-namespace",
           !flags.contains "not-app-extension-safe")
    else .error "unknown flag value"
  | .Unsupported => .error "unsupported file type"

/-- Modelled from the spec: validate the version-conditioned install-name
entries, rejecting malformed version strings. -/
def parseInstallNames : List RawInstallNameEntry →
    Except String (List InstallNameEntry)
  | [] => .ok []
  | e :: rest =>
    match parseVersionString e.version with
    | none => .error "malformed version string"
    | some v =>
      match parseInstallNames rest with
      | .error msg => .error msg
      | .ok tail => .ok ({ version := v, name := e.name } :: tail)

/-- Modelled from the spec: validate one raw slice — decode its enums,
versions and flags, reject empty install names, and reject keys that do not
belong to the document's schema revision (the parent-framework field is a
revision-2 field). -/
def parseSlice (ft : FileType) (r : RawSlice) : Except String Slice :=
  match parsePlatform r.platform with
  | .error e => .error e
  | .ok p =>
    if r.installName = "" then .error "empty install name"
    else
      match parseVersionString r.currentVersion with
      | none => .error "malformed version string"
      | some cur =>
        match parseVersionString r.compatibilityVersion with
        | none => .error "malformed version string"
        | some compat =>
          match parseObjCConstraint r.objcConstraint with
          | .error e => .error e
          | .ok oc =>
            match parseFlags ft r.flags with
            | .error e => .error e
            | .ok (two, aes) =>
              if ft == .TBD_V1 && r.parentFrameworkName.isSome then
                .error "unexpected key for this schema revision"
              else
                match parseInstallNames r.installNames with
                | .error e => .error e
                | .ok entries =>
                  .ok { platform := p
                        cpuType := r.cpuType
                        cpuSubType := r.cpuSubType
                        installName := r.installName
                        installNames := entries
                        currentVersion := cur
                        compatibilityVersion := compat
                        swiftVersion := r.swiftVersion
                        objcConstraint := oc
                        twoLevelNamespace := two
                        appExtensionSafe := aes
                        parentFrameworkName := r.parentFrameworkName
                        exports := r.exports
                        undefineds := r.undefineds
                        allowableClients := r.allowableClients
                        reexportedLibraries := r.reexportedLibraries
                        ignoreExports := r.ignoreExports }

/-- Modelled from the spec: validate every slice, first failure wins. -/
def parseSlices (ft : FileType) : List RawSlice → Except String (List Slice)
  | [] => .ok []
  | r :: rest =>
    match parseSlice ft r with
    | .error e => .error e
    | .ok s =>
      match parseSlices ft rest with
      | .error e => .error e
      | .ok tail => .ok (s :: tail)

/-- The cpu type/subtype pair a raw slice claims. -/
def archKey (r : RawSlice) : Int × Int := (r.cpuType, r.cpuSubType)

/-- Modelled from the spec: the Schema Parser — produce a `Document` from
the structural buffer content or fail with a descriptive error.  It rejects
unknown schema versions, documents without slices, and duplicate slices for
the same architecture. -/
def parseDocument (r : RawDocument) : Except String Document :=
  match tagFileType r.tag with
  | .error e => .error e
  | .ok ft =>
    if r.slices.isEmpty then .error "no slices in file"
    else if (r.slices.map archKey).Nodup then
      match parseSlices ft r.slices with
      | .error e => .error e
      | .ok slices => .ok { fileType := ft, slices := slices }
    else .error "duplicate slice for the same architecture"

/-!  Format Sniffer (spec section 4.1) and `create`
(spec sections 4.3 to 4.5, `LinkerInterfaceFile::create` in the header).  -/

/-- The schema tags (magic markers) of the supported revisions. -/
def supportedTags : List String := ["!tapi-tbd-v1", "!tapi-tbd-v2"]

/-- `getSupportedFileExtensions` from the header: the stable list of
stub-file extensions. -/
def getSupportedFileExtensions : List String := [".tbd"]

/-- Modelled from the spec: the Format Sniffer, `isSupported` in the
header.  A cheap, non-validating check: it looks only at the buffer's
magic marker and never inspects the slices' content. -/
def isSupported (path : String) (buffer : RawDocument) : Bool :=
  supportedTags.contains buffer.tag

/-- Modelled from the spec: `LinkerInterfaceFile::create` — run the
parser, resolve the requested architecture against the document, and build
the interface view; every failure is a descriptive error message and no
partially constructed view is ever returned. -/
def create (path : String) (buffer : RawDocument) (cpuType : cpu_type_t)
    (cpuSubType : cpu_subtype_t) (matchingMode : CpuSubTypeMatching)
    (minOSVersion : Nat) : Except String LinkerInterfaceFile :=
  match parseDocument buffer with
  | .error e => .error e
  | .ok doc =>
    match resolve abiCompatTable doc cpuType cpuSubType matchingMode with
    | none => .error "no matching architecture"
    | some s => .ok (mkView doc.fileType s minOSVersion)

/-!  Serialization of a document back to its structural form, for the
round-trip property (spec section 8).  -/

/-- The platform key written for each platform enum value. -/
def platformKey : Platform → String
  | .Unknown => "unknown"
  | .OSX => "macosx"
  | .iOS => "ios"
  | .watchOS => "watchos"
  | .tvOS => "tvos"

/-- The key written for each Objective-C constraint enum value. -/
def objcConstraintKey : ObjCConstraint → String
  | .None => "none"
  | .Retain_Release => "retain_release"
  | .Retain_Release_For_Simulator => "retain_release_for_simulator"
  | .Retain_Release_Or_GC => "retain_release_or_gc"
  | .GC => "gc"

/-- The schema tag written for each file type. -/
def fileTypeTag : FileType → String
  | .Unsupported => ""
  | .TBD_V1 => "!tapi-tbd-v1"
  | .TBD_V2 => "!tapi-tbd-v2"

/-- Serialize the two linking flags in the encoding of the given schema
revision (revision 1 lists the properties that hold, revision 2 the
properties that fail). -/
def serializeFlags (ft : FileType) (two aes : Bool) : List String :=
  match ft with
  | .TBD_V1 =>
    (if two then ["two-level-namespace"] else []) ++
    (if aes then ["app-extension-safe"] else [])
  | _ =>
    (if two then [] else ["flat-namespace"]) ++
    (if aes then [] else ["not-app-extension-safe"])

/-- Serialize one version-conditioned install-name entry. -/
def serializeInstallNameEntry (e : InstallNameEntry) : RawInstallNameEntry :=
  { version := renderVersion e.version, name := e.name }

/-- Serialize one slice into its structural form. -/
def serializeSlice (ft : FileType) (s : Slice) : RawSlice :=
  { platform := platformKey s.platform
    cpuType := s.cpuType
    cpuSubType := s.cpuSubType
    installName := s.installName
    installNames := s.installNames.map serializeInstallNameEntry
    currentVersion := renderVersion s.currentVersion
    compatibilityVersion := renderVersion s.compatibilityVersion
    swiftVersion := s.swiftVersion
    objcConstraint := objcConstraintKey s.objcConstraint
    flags := serializeFlags ft s.twoLevelNamespace s.appExtensionSafe
    parentFrameworkName := s.parentFrameworkName
    exports := s.exports
    undefineds := s.undefineds
    allowableClients := s.allowableClients
    reexportedLibraries := s.reexportedLibraries
    ignoreExports := s.ignoreExports }

/-- Serialize a document into its structural form. -/
def serializeDocument (d : Document) : RawDocument :=
  { tag := fileTypeTag d.fileType
    slices := d.slices.map (serializeSlice d.fileType) }

/-- A slice the serializer can faithfully write in the given schema
revision: non-empty install name, versions within 32 bits, and no
revision-2-only field in a revision-1 document. -/
def WellFormedSlice (ft : FileType) (s : Slice) : Prop :=
  s.installName ≠ "" ∧ s.currentVersion < 4294967296 ∧
  s.compatibilityVersion < 4294967296 ∧
  (∀ e ∈ s.installNames, e.version < 4294967296) ∧
  (ft = .TBD_V1 → s.parentFrameworkName = none)

instance (ft : FileType) (s : Slice) : Decidable (WellFormedSlice ft s) := by
  unfold WellFormedSlice; infer_instance

/-- A well-formed document (spec section 3's invariants): a supported
schema revision, at least one slice, a unique cpu type/subtype pair per
slice, and well-formed slices. -/
def WellFormedDocument (d : Document) : Prop :=
  (d.fileType = .TBD_V1 ∨ d.fileType = .TBD_V2) ∧ d.slices ≠ [] ∧
  (d.slices.map (fun s => ((s.cpuType, s.cpuSubType) : Int × Int))).Nodup ∧
  ∀ s ∈ d.slices, WellFormedSlice d.fileType s

instance (d : Document) : Decidable (WellFormedDocument d) := by
  unfold WellFormedDocument; infer_instance

/-!  Equivalence Checker (spec section 4.6, `areEquivalent` in the
header).  -/

/-- Modelled from the spec: one architecture of a compiled MachO dynamic
library as read by the external binary-reader collaborator: its metadata
and its export/import symbol-name tables. -/
structure BinarySlice where
  cpuType : cpu_type_t
  cpuSubType : cpu_subtype_t
  installName : String
  currentVersion : Nat
  compatibilityVersion : Nat
  exports : List String
  undefineds : List String
deriving DecidableEq

/-- Modelled from the spec: a compiled MachO dynamic library, per
architecture. -/
structure Binary where
  slices : List BinarySlice
deriving DecidableEq

/-- Set equality of two lists of names. -/
def listSetEq (a b : List String) : Bool :=
  a.all (fun x => b.contains x) && b.all (fun x => a.contains x)

/-- Names of a slice's exported symbols. -/
def exportNames (s : Slice) : List String := s.exports.map Symbol.name

/-- Modelled from the spec: compare one stub slice against the binary's
slice for the same architecture: install name, current version,
compatibility version and exact set equality of exported symbol names.
Undefined symbols are informational and not compared. -/
def archEquivalent (s : Slice) (b : BinarySlice) : Bool :=
  s.installName == b.installName &&
  s.currentVersion == b.currentVersion &&
  s.compatibilityVersion == b.compatibilityVersion &&
  listSetEq (exportNames s) b.exports

/-- Find the binary's slice for an architecture. -/
def findBinaryArch (bin : Binary) (cpuType : cpu_type_t)
    (cpuSubType : cpu_subtype_t) : Option BinarySlice :=
  bin.slices.find? (fun b => b.cpuType == cpuType && b.cpuSubType == cpuSubType)

/-- Modelled from the spec: `areEquivalent` — the two ingestion paths
(stub parse, binary read) are fallible, so their outcomes arrive as
`Option`; any I/O or parse failure on either side yields `false`.
Otherwise every architecture the stub declares must be present in the
binary and compare equal; the result is the conjunction over the stub's
architectures. -/
def areEquivalent (stub : Option Document) (dylib : Option Binary) : Bool :=
  match stub, dylib with
  | some d, some b =>
    d.slices.all (fun s =>
      match findBinaryArch b s.cpuType s.cpuSubType with
      | some ba => archEquivalent s ba
      | none => false)
  | _, _ => false

/-!  Concrete sample data, used to evaluate the theorems below on closed
inputs.  -/

/-- Symbol flags of a regular (non-weak, non-thread-local) symbol. -/
def regularFlags : SymbolFlags :=
  { weakDefined := false, weakReferenced := false, threadLocal := false }

/-- A concrete slice: an x86_64 macOS library exporting one symbol. -/
def sampleSlice : Slice :=
  { platform := .OSX
    cpuType := 16777223
    cpuSubType := 3
    installName := "/usr/lib/libFoo.dylib"
    installNames := []
    currentVersion := packVersion 1 0 0
    compatibilityVersion := packVersion 1 0 0
    swiftVersion := 0
    objcConstraint := .None
    twoLevelNamespace := true
    appExtensionSafe := false
    parentFrameworkName := none
    exports := [{ name := "_foo", flags := regularFlags }]
    undefineds := []
    allowableClients := []
    reexportedLibraries := []
    ignoreExports := [] }

/-- First slice of the two-slice sample document: subtype 3 (x86_64). -/
def sliceSubA : Slice := { sampleSlice with cpuSubType := 3 }

/-- Second slice of the two-slice sample document: subtype 8 (x86_64h). -/
def sliceSubB : Slice := { sampleSlice with cpuSubType := 8 }

/-- A document holding two slices of the same cpu type with different
subtypes. -/
def twoSliceDoc : Document :=
  { fileType := .TBD_V2, slices := [sliceSubA, sliceSubB] }

/-- A concrete armv7 slice (cpu type 12, subtype 9). -/
def armSlice : Slice := { sampleSlice with cpuType := 12, cpuSubType := 9 }

/-- A document holding only the armv7 slice. -/
def armDoc : Document := { fileType := .TBD_V2, slices := [armSlice] }

/-- A slice with one version-conditioned install-name override at
threshold 10.12. -/
def versionedSlice : Slice :=
  { sampleSlice with
    installNames := [{ version := packVersion 10 12 0
                       name := "/usr/lib/libFoo.A.dylib" }] }

/-- A slice declaring a parent (umbrella) framework. -/
def umbrellaSlice : Slice :=
  { sampleSlice with parentFrameworkName := some "CoreServices" }

/-- A binary with no architectures at all. -/
def emptyBinary : Binary := { slices := [] }

/-- A structural buffer with a valid revision-1 magic marker but no
slices: the sniffer accepts it, the parser rejects it. -/
def emptyRawV1 : RawDocument := { tag := "!tapi-tbd-v1", slices := [] }

/-- The platform keys the parser understands (one per declared enum
value). -/
def knownPlatformKeys : List String :=
  ["unknown", "macosx", "ios", "watchos", "tvos"]

/-- The Objective-C constraint keys the parser understands (one per
declared enum value). -/
def knownObjCConstraintKeys : List String :=
  ["none", "retain_release", "retain_release_for_simulator",
   "retain_release_or_gc", "gc"]

/-- Value of a least-significant-first decimal digit string. -/
def revDigitsVal : List Char → Nat
  | [] => 0
  | c :: r => digitVal c + 10 * revDigitsVal r

/-- A concrete valid raw slice. -/
def sampleRawSlice : RawSlice :=
  { platform := "macosx"
    cpuType := 16777223
    cpuSubType := 3
    installName := "/usr/lib/libFoo.dylib"
    installNames := []
    currentVersion := "1.0.0"
    compatibilityVersion := "1.0.0"
    swiftVersion := 0
    objcConstraint := "none"
    flags := []
    parentFrameworkName := none
    exports := []
    undefineds := []
    allowableClients := []
    reexportedLibraries := []
    ignoreExports := [] }

/-- A structural buffer whose single slice has an empty install name. -/
def badRawDoc : RawDocument :=
  { tag := "!tapi-tbd-v1"
    slices := [{ sampleRawSlice with installName := "" }] }

end Tapi

namespace Tapi

/-!  Helper lemmas about the architecture resolver.  -/

/-- A slice found by `findExact` is in the list and matches the requested
cpu type and subtype exactly. -/
theorem findExact_some {slices : List Slice} {ct : cpu_type_t}
    {st : cpu_subtype_t} {s : Slice} (h : findExact slices ct st = some s) :
    s ∈ slices ∧ s.cpuType = ct ∧ s.cpuSubType = st := by
  unfold findExact at h
  have hm := List.mem_of_find?_eq_some h
  have hp := List.find?_some h
  simp only [Bool.and_eq_true, beq_iff_eq] at hp
  exact ⟨hm, hp.1, hp.2⟩

/-- A slice produced by `firstCompat` matches the first subtype of the
compatibility list for which any slice exists; all closer entries have no
slice. -/
theorem firstCompat_some {slices : List Slice} {ct : cpu_type_t}
    {l : List cpu_subtype_t} {s : Slice} (h : firstCompat slices ct l = some s) :
    ∃ pre post, l = pre ++ s.cpuSubType :: post ∧
      findExact slices ct s.cpuSubType = some s ∧
      ∀ st2 ∈ pre, findExact slices ct st2 = none := by
  induction l with
  | nil => simp [firstCompat] at h
  | cons a rest ih =>
    rw [firstCompat] at h
    cases hfe : findExact slices ct a with
    | some s0 =>
      rw [hfe] at h
      cases h
      obtain ⟨_, _, hsub⟩ := findExact_some hfe
      subst hsub
      exact ⟨[], rest, rfl, hfe, by simp⟩
    | none =>
      rw [hfe] at h
      obtain ⟨pre, post, hl, hfind, hpre⟩ := ih h
      refine ⟨a :: pre, post, by rw [hl]; rfl, hfind, ?_⟩
      intro st2 hst2
      rcases List.mem_cons.mp hst2 with h1 | h1
      · exact h1 ▸ hfe
      · exact hpre st2 h1

/-- When no subtype of the compatibility list has a slice, `firstCompat`
fails. -/
theorem firstCompat_none {slices : List Slice} {ct : cpu_type_t}
    {l : List cpu_subtype_t} (h : ∀ st2 ∈ l, findExact slices ct st2 = none) :
    firstCompat slices ct l = none := by
  induction l with
  | nil => rfl
  | cons a rest ih =>
    rw [firstCompat, h a (by simp)]
    exact ih (fun st2 hst2 => h st2 (List.mem_cons_of_mem a hst2))

/-- Conversely, when `firstCompat` fails, no subtype of the compatibility
list has a slice. -/
theorem firstCompat_none_forall {slices : List Slice} {ct : cpu_type_t}
    {l : List cpu_subtype_t} (h : firstCompat slices ct l = none) :
    ∀ st2 ∈ l, findExact slices ct st2 = none := by
  induction l with
  | nil =>
    intro st2 h2
    simp at h2
  | cons a rest ih =>
    intro st2 h2
    rw [firstCompat] at h
    cases hfe : findExact slices ct a with
    | some s =>
      rw [hfe] at h
      cases h
    | none =>
      rw [hfe] at h
      rcases List.mem_cons.mp h2 with rfl | h3
      · exact hfe
      · exact ih h st2 h3

/-- `firstCompat` succeeds on the first subtype of the compatibility list
that has a slice, returning that slice. -/
theorem firstCompat_append_some {slices : List Slice} {ct : cpu_type_t}
    {pre post : List cpu_subtype_t} {st2 : cpu_subtype_t} {s2 : Slice}
    (hpre : ∀ st3 ∈ pre, findExact slices ct st3 = none)
    (hs : findExact slices ct st2 = some s2) :
    firstCompat slices ct (pre ++ st2 :: post) = some s2 := by
  induction pre with
  | nil =>
    rw [List.nil_append, firstCompat, hs]
  | cons a rest ih =>
    rw [List.cons_append, firstCompat, hpre a (by simp)]
    exact ih (fun st3 h3 => hpre st3 (List.mem_cons_of_mem a h3))

/-- C1: for a document whose slices are `(cpuA, subA)` and `(cpuA, subB)`,
requesting subtype `subC` (equal to neither) in `Exact` mode fails
resolution, while requesting `subB` in `Exact` mode succeeds and returns a
slice whose subtype is `subB`. -/
theorem c1_exact_mode_strictness
    (compat : cpu_type_t → cpu_subtype_t → List cpu_subtype_t)
    (d : Document) (s1 s2 : Slice) (cpuA subA subB subC : Int)
    (hslices : d.slices = [s1, s2])
    (h1t : s1.cpuType = cpuA) (h2t : s2.cpuType = cpuA)
    (h1s : s1.cpuSubType = subA) (h2s : s2.cpuSubType = subB)
    (hCA : subC ≠ subA) (hCB : subC ≠ subB) :
    resolve compat d cpuA subC .Exact = none ∧
    ∃ s, resolve compat d cpuA subB .Exact = some s ∧ s.cpuSubType = subB := by
  have e1 : (subA == subC) = false :=
    beq_eq_false_iff_ne.mpr (fun h => hCA h.symm)
  have e2 : (subB == subC) = false :=
    beq_eq_false_iff_ne.mpr (fun h => hCB h.symm)
  constructor
  · simp [resolve, findExact, hslices, h1t, h1s, h2t, h2s, e1, e2]
  · by_cases hAB : subA = subB
    · refine ⟨s1, ?_, hAB ▸ h1s⟩
      simp [resolve, findExact, hslices, h1t, h1s, hAB]
    · have e3 : (subA == subB) = false := beq_eq_false_iff_ne.mpr hAB
      refine ⟨s2, ?_, h2s⟩
      simp [resolve, findExact, hslices, h1t, h1s, h2t, h2s, e3]

/-- Witness for C1 on the concrete two-slice document: subtype 11 matches
neither slice and fails, subtype 8 resolves to a slice whose subtype
is 8. -/
theorem c1_exact_mode_strictness_witness :
    resolve abiCompatTable twoSliceDoc 16777223 11 .Exact = none ∧
    ∃ s, resolve abiCompatTable twoSliceDoc 16777223 8 .Exact = some s ∧
      s.cpuSubType = 8 :=
  c1_exact_mode_strictness abiCompatTable twoSliceDoc sliceSubA sliceSubB
    16777223 3 8 11 rfl rfl rfl rfl rfl (by decide) (by decide)

/-- C2: in `ABI_Compatible` mode an exactly matching slice is always
selected when one exists; otherwise resolution does fall back — it
succeeds and returns the slice of the closest declared-compatible subtype
that has a slice (and succeeds whenever any declared-compatible slice
exists), any successful fallback is of that shape, and resolution fails
when no table entry has a slice; in both modes any resolved slice's cpu
type equals the requested cpu type exactly. -/
theorem c2_abi_compatible_fallback
    (compat : cpu_type_t → cpu_subtype_t → List cpu_subtype_t)
    (d : Document) (ct st : Int) :
    (∀ s, findExact d.slices ct st = some s →
      ∀ mode, resolve compat d ct st mode = some s) ∧
    (findExact d.slices ct st = none →
      (∀ pre st2 post s2, compat ct st = pre ++ st2 :: post →
        (∀ st3 ∈ pre, findExact d.slices ct st3 = none) →
        findExact d.slices ct st2 = some s2 →
        resolve compat d ct st .ABI_Compatible = some s2) ∧
      ((∃ st2 ∈ compat ct st, ∃ s2, findExact d.slices ct st2 = some s2) →
        ∃ s, resolve compat d ct st .ABI_Compatible = some s) ∧
      (∀ s, resolve compat d ct st .ABI_Compatible = some s →
        ∃ pre post, compat ct st = pre ++ s.cpuSubType :: post ∧
          findExact d.slices ct s.cpuSubType = some s ∧
          ∀ st2 ∈ pre, findExact d.slices ct st2 = none) ∧
      ((∀ st2 ∈ compat ct st, findExact d.slices ct st2 = none) →
        resolve compat d ct st .ABI_Compatible = none)) ∧
    (∀ mode s, resolve compat d ct st mode = some s → s.cpuType = ct) := by
  refine ⟨?_, ?_, ?_⟩
  · intro s h mode
    simp [resolve, h]
  · intro hnone
    refine ⟨?_, ?_, ?_, ?_⟩
    · intro pre st2 post s2 hl hpre hs2
      rw [resolve.eq_def, hnone]
      show firstCompat d.slices ct (compat ct st) = some s2
      rw [hl]
      exact firstCompat_append_some hpre hs2
    · rintro ⟨st2, hmem, s2, hs2⟩
      rw [resolve.eq_def, hnone]
      show ∃ s, firstCompat d.slices ct (compat ct st) = some s
      cases hfc : firstCompat d.slices ct (compat ct st) with
      | some s => exact ⟨s, rfl⟩
      | none =>
        rw [firstCompat_none_forall hfc st2 hmem] at hs2
        cases hs2
    · intro s h
      rw [resolve.eq_def, hnone] at h
      exact firstCompat_some h
    · intro hall
      rw [resolve.eq_def, hnone]
      exact firstCompat_none hall
  · intro mode s h
    rw [resolve.eq_def] at h
    cases hfe : findExact d.slices ct st with
    | some s0 =>
      rw [hfe] at h
      cases h
      exact (findExact_some hfe).2.1
    | none =>
      rw [hfe] at h
      cases mode with
      | Exact => simp at h
      | ABI_Compatible =>
        obtain ⟨_, _, _, hfind, _⟩ := firstCompat_some h
        exact (findExact_some hfind).2.1

/-- C3: for a slice whose version-conditioned install-name entries are
ordered by version ascending, the resolved install name is the name of the
greatest entry whose threshold is at most `minOSVersion` when one
qualifies — and `isInstallNameVersionSpecific` is then true — and the
slice's unconditional install name — with the flag false — when no entry
qualifies. -/
theorem c3_version_conditioned_install_name (ft : FileType) (s : Slice)
    (minOS : Nat)
    (hsorted : s.installNames.Pairwise (fun a b => a.version < b.version)) :
    ((∃ e ∈ s.installNames, e.version ≤ minOS) →
      ∃ g ∈ s.installNames, g.version ≤ minOS ∧
        (∀ e ∈ s.installNames, e.version ≤ minOS → e.version ≤ g.version) ∧
        getInstallName (mkView ft s minOS) = g.name ∧
        isInstallNameVersionSpecific (mkView ft s minOS) = true) ∧
    ((∀ e ∈ s.installNames, ¬ e.version ≤ minOS) →
      getInstallName (mkView ft s minOS) = s.installName ∧
      isInstallNameVersionSpecific (mkView ft s minOS) = false) := by
  constructor
  · intro hex
    obtain ⟨e0, he0, he0le⟩ := hex
    cases hlast : selectInstallName s.installNames minOS with
    | none =>
      unfold selectInstallName at hlast
      rw [List.getLast?_eq_none_iff, List.filter_eq_nil_iff] at hlast
      exact absurd (by simpa using he0le) (hlast e0 he0)
    | some g =>
      unfold selectInstallName at hlast
      have hgmem := List.mem_of_getLast?_eq_some hlast
      have hg2 := List.mem_filter.mp hgmem
      obtain ⟨ys, hys⟩ := List.getLast?_eq_some_iff.mp hlast
      have hpf : (s.installNames.filter
          (fun e => e.version ≤ minOS)).Pairwise
          (fun a b => a.version < b.version) := hsorted.filter _
      rw [hys] at hpf
      refine ⟨g, hg2.1, by simpa using hg2.2, ?_, ?_, ?_⟩
      · intro e he hele
        have hef : e ∈ ys ++ [g] := by
          rw [← hys]
          exact List.mem_filter.mpr ⟨he, by simpa using hele⟩
        rcases List.mem_append.mp hef with h1 | h1
        · exact le_of_lt ((List.pairwise_append.mp hpf).2.2 e h1 g (by simp))
        · simp only [List.mem_singleton] at h1
          exact h1 ▸ le_refl _
      · simp [getInstallName, mkView, selectInstallName, hlast]
      · simp [isInstallNameVersionSpecific, mkView, selectInstallName, hlast]
  · intro hall
    have hsel : selectInstallName s.installNames minOS = none := by
      unfold selectInstallName
      rw [List.getLast?_eq_none_iff, List.filter_eq_nil_iff]
      intro a ha
      simpa using hall a ha
    constructor
    · simp [getInstallName, mkView, hsel]
    · simp [isInstallNameVersionSpecific, mkView, hsel]

/-- Witness for C3 on the concrete slice with a 10.12-threshold override:
at minimum OS version 10.13 the override's name wins and the flag is set;
at 10.10 the unconditional name wins and the flag is clear. -/
theorem c3_version_conditioned_install_name_witness :
    (∃ g ∈ versionedSlice.installNames, g.version ≤ packVersion 10 13 0 ∧
      (∀ e ∈ versionedSlice.installNames,
        e.version ≤ packVersion 10 13 0 → e.version ≤ g.version) ∧
      getInstallName (mkView .TBD_V2 versionedSlice (packVersion 10 13 0)) =
        g.name ∧
      isInstallNameVersionSpecific
        (mkView .TBD_V2 versionedSlice (packVersion 10 13 0)) = true) ∧
    (getInstallName (mkView .TBD_V2 versionedSlice (packVersion 10 10 0)) =
      versionedSlice.installName ∧
     isInstallNameVersionSpecific
       (mkView .TBD_V2 versionedSlice (packVersion 10 10 0)) = false) :=
  ⟨(c3_version_conditioned_install_name .TBD_V2 versionedSlice
      (packVersion 10 13 0) (by simp [versionedSlice])).1 (by decide),
   (c3_version_conditioned_install_name .TBD_V2 versionedSlice
      (packVersion 10 10 0) (by simp [versionedSlice])).2 (by decide)⟩

/-- C8: the has-allowable-clients, has-reexported-libraries and
has-weak-defined-exports booleans are true exactly when the corresponding
list is non-empty (respectively contains a weak-defined symbol); they are
accessors computed from the stored lists, so they can never disagree with
them. -/
theorem c8_derived_booleans (f : LinkerInterfaceFile) :
    (hasAllowableClients f = true ↔ allowableClients f ≠ []) ∧
    (hasReexportedLibraries f = true ↔ reexportedLibraries f ≠ []) ∧
    (hasWeakDefinedExports f = true ↔
      ∃ sym ∈ exports f, sym.flags.weakDefined = true) := by
  refine ⟨?_, ?_, ?_⟩
  · simp [hasAllowableClients, allowableClients]
  · simp [hasReexportedLibraries, reexportedLibraries]
  · simp [hasWeakDefinedExports, exports, List.any_eq_true]

/-- C10: the parent-framework accessor of a constructed view returns the
declared umbrella framework name when the slice declares one, and the
empty string when it declares none. -/
theorem c10_parent_framework_name (ft : FileType) (s : Slice) (minOS : Nat) :
    (∀ n, s.parentFrameworkName = some n →
      getParentFrameworkName (mkView ft s minOS) = n) ∧
    (s.parentFrameworkName = none →
      getParentFrameworkName (mkView ft s minOS) = "") := by
  constructor
  · intro n h
    simp [getParentFrameworkName, mkView, h]
  · intro h
    simp [getParentFrameworkName, mkView, h]

/-- Witness for C10: the umbrella slice's view exposes the declared name,
the plain sample slice's view exposes the empty string. -/
theorem c10_parent_framework_name_witness :
    getParentFrameworkName (mkView .TBD_V2 umbrellaSlice 0) = "CoreServices" ∧
    getParentFrameworkName (mkView .TBD_V2 sampleSlice 0) = "" :=
  ⟨(c10_parent_framework_name .TBD_V2 umbrellaSlice 0).1 "CoreServices" rfl,
   (c10_parent_framework_name .TBD_V2 sampleSlice 0).2 rfl⟩

/-- Witness for C2 on the concrete armv7 document: requesting armv7s
(subtype 11) has no exact match and resolution does fall back through the
table, returning the armv7 slice, whose cpu type is the requested one. -/
theorem c2_abi_compatible_fallback_witness :
    resolve abiCompatTable armDoc 12 11 .ABI_Compatible = some armSlice ∧
    armSlice.cpuType = 12 := by
  have h := c2_abi_compatible_fallback abiCompatTable armDoc 12 11
  have hres : resolve abiCompatTable armDoc 12 11 .ABI_Compatible =
      some armSlice :=
    (h.2.1 (by decide)).1 [] 9 [6] armSlice (by decide) (by decide) (by decide)
  exact ⟨hres, h.2.2 .ABI_Compatible armSlice hres⟩

/-- C4: the equivalence checker yields false when either ingestion path
failed; an architecture the stub declares that is absent from the binary
makes it false; it is true exactly when every architecture the stub
declares is present in the binary and compares equal; the per-architecture
comparison is exactly install name, current version, compatibility version
and set equality of exported symbol names; and it is unchanged by the
binary's undefined symbols. -/
theorem c4_equivalence_checker (d : Document) (b : Binary) :
    (∀ ob, areEquivalent none ob = false) ∧
    (∀ od, areEquivalent od none = false) ∧
    ((∃ s ∈ d.slices, findBinaryArch b s.cpuType s.cpuSubType = none) →
      areEquivalent (some d) (some b) = false) ∧
    (areEquivalent (some d) (some b) = true ↔
      ∀ s ∈ d.slices, ∃ ba,
        findBinaryArch b s.cpuType s.cpuSubType = some ba ∧
        archEquivalent s ba = true) ∧
    (∀ s ba, archEquivalent s ba = true ↔
      (s.installName = ba.installName ∧
       s.currentVersion = ba.currentVersion ∧
       s.compatibilityVersion = ba.compatibilityVersion ∧
       ∀ n : String, n ∈ exportNames s ↔ n ∈ ba.exports)) ∧
    (∀ s ba l, archEquivalent s ba =
      archEquivalent s { ba with undefineds := l }) := by
  refine ⟨?_, ?_, ?_, ?_, ?_, ?_⟩
  · intro ob
    cases ob <;> rfl
  · intro od
    cases od <;> rfl
  · rintro ⟨s, hs, hnone⟩
    have : ¬ areEquivalent (some d) (some b) = true := by
      intro h
      have hall := List.all_eq_true.mp h s hs
      rw [hnone] at hall
      simp at hall
    simpa using this
  · constructor
    · intro h s hs
      have hall := List.all_eq_true.mp h s hs
      cases hfb : findBinaryArch b s.cpuType s.cpuSubType with
      | none => rw [hfb] at hall; simp at hall
      | some ba =>
        rw [hfb] at hall
        exact ⟨ba, rfl, hall⟩
    · intro h
      apply List.all_eq_true.mpr
      intro s hs
      obtain ⟨ba, hfb, heq⟩ := h s hs
      show (match findBinaryArch b s.cpuType s.cpuSubType with
            | some ba => archEquivalent s ba
            | none => false) = true
      rw [hfb]
      exact heq
  · intro s ba
    unfold archEquivalent listSetEq
    simp only [Bool.and_eq_true, beq_iff_eq, List.all_eq_true,
      List.contains_eq_any_beq, List.any_eq_true, beq_iff_eq]
    constructor
    · rintro ⟨⟨⟨h1, h2⟩, h3⟩, h4, h5⟩
      refine ⟨h1, h2, h3, fun n => ⟨fun hn => ?_, fun hn => ?_⟩⟩
      · obtain ⟨x, hx, hxe⟩ := h4 n hn
        exact hxe ▸ hx
      · obtain ⟨x, hx, hxe⟩ := h5 n hn
        exact hxe ▸ hx
    · rintro ⟨h1, h2, h3, h4⟩
      exact ⟨⟨⟨h1, h2⟩, h3⟩,
        fun n hn => ⟨n, (h4 n).mp hn, rfl⟩,
        fun n hn => ⟨n, (h4 n).mpr hn, rfl⟩⟩
  · intro s ba l
    rfl

/-- Witness for C4: the armv7 stub document against a binary with no
architectures at all is not equivalent. -/
theorem c4_equivalence_checker_witness :
    areEquivalent (some armDoc) (some emptyBinary) = false :=
  (c4_equivalence_checker armDoc emptyBinary).2.2.1
    ⟨armSlice, by decide, rfl⟩

/-!  Every error message the parser pipeline can produce is non-empty.  -/

/-- `tagFileType` never fails with an empty message. -/
theorem tagFileType_error_ne {s e : String}
    (h : tagFileType s = .error e) : e ≠ "" := by
  unfold tagFileType at h
  split_ifs at h <;> cases h
  decide

/-- `parsePlatform` never fails with an empty message. -/
theorem parsePlatform_error_ne {s e : String}
    (h : parsePlatform s = .error e) : e ≠ "" := by
  unfold parsePlatform at h
  split_ifs at h <;> cases h
  decide

/-- `parseObjCConstraint` never fails with an empty message. -/
theorem parseObjCConstraint_error_ne {s e : String}
    (h : parseObjCConstraint s = .error e) : e ≠ "" := by
  unfold parseObjCConstraint at h
  split_ifs at h <;> cases h
  decide

/-- `parseFlags` never fails with an empty message. -/
theorem parseFlags_error_ne {ft : FileType} {flags : List String}
    {e : String} (h : parseFlags ft flags = .error e) : e ≠ "" := by
  cases ft with
  | Unsupported =>
    simp only [parseFlags] at h
    cases h; decide
  | TBD_V1 =>
    simp only [parseFlags] at h
    split at h
    · cases h
    · cases h; decide
  | TBD_V2 =>
    simp only [parseFlags] at h
    split at h
    · cases h
    · cases h; decide

/-- `parseInstallNames` never fails with an empty message. -/
theorem parseInstallNames_error_ne {l : List RawInstallNameEntry}
    {e : String} (h : parseInstallNames l = .error e) : e ≠ "" := by
  induction l with
  | nil => simp [parseInstallNames] at h
  | cons a rest ih =>
    rw [parseInstallNames] at h
    cases hv : parseVersionString a.version with
    | none => simp only [hv] at h; cases h; decide
    | some v =>
      simp only [hv] at h
      cases hr : parseInstallNames rest with
      | error msg => simp only [hr] at h; cases h; exact ih hr
      | ok tail => simp only [hr] at h; cases h

/-- `parseSlice` never fails with an empty message. -/
theorem parseSlice_error_ne {ft : FileType} {r : RawSlice} {e : String}
    (h : parseSlice ft r = .error e) : e ≠ "" := by
  unfold parseSlice at h
  cases hp : parsePlatform r.platform with
  | error e2 => simp only [hp] at h; cases h; exact parsePlatform_error_ne hp
  | ok p =>
    simp only [hp] at h
    split at h
    · cases h; decide
    · cases hv1 : parseVersionString r.currentVersion with
      | none => simp only [hv1] at h; cases h; decide
      | some cur =>
        simp only [hv1] at h
        cases hv2 : parseVersionString r.compatibilityVersion with
        | none => simp only [hv2] at h; cases h; decide
        | some compat =>
          simp only [hv2] at h
          cases hoc : parseObjCConstraint r.objcConstraint with
          | error e2 =>
            simp only [hoc] at h; cases h; exact parseObjCConstraint_error_ne hoc
          | ok oc =>
            simp only [hoc] at h
            cases hfl : parseFlags ft r.flags with
            | error e2 =>
              simp only [hfl] at h; cases h; exact parseFlags_error_ne hfl
            | ok pr =>
              obtain ⟨two, aes⟩ := pr
              simp only [hfl] at h
              split at h
              · cases h; decide
              · cases hin : parseInstallNames r.installNames with
                | error e2 =>
                  simp only [hin] at h; cases h
                  exact parseInstallNames_error_ne hin
                | ok entries => simp only [hin] at h; cases h

/-- `parseSlices` never fails with an empty message. -/
theorem parseSlices_error_ne {ft : FileType} {l : List RawSlice}
    {e : String} (h : parseSlices ft l = .error e) : e ≠ "" := by
  induction l with
  | nil => simp [parseSlices] at h
  | cons a rest ih =>
    rw [parseSlices] at h
    cases hs : parseSlice ft a with
    | error e2 => simp only [hs] at h; cases h; exact parseSlice_error_ne hs
    | ok s =>
      simp only [hs] at h
      cases hr : parseSlices ft rest with
      | error msg => simp only [hr] at h; cases h; exact ih hr
      | ok tail => simp only [hr] at h; cases h

/-- `parseDocument` never fails with an empty message. -/
theorem parseDocument_error_ne {r : RawDocument} {e : String}
    (h : parseDocument r = .error e) : e ≠ "" := by
  unfold parseDocument at h
  cases ht : tagFileType r.tag with
  | error e2 => simp only [ht] at h; cases h; exact tagFileType_error_ne ht
  | ok ft =>
    simp only [ht] at h
    split_ifs at h
    · cases h; decide
    · cases hs : parseSlices ft r.slices with
      | error e2 => simp only [hs] at h; cases h; exact parseSlices_error_ne hs
      | ok slices => simp only [hs] at h; cases h
    · cases h; decide

/-- C5: `create` is total — for every input it either returns a fully
constructed interface view or fails with a non-empty error message; the
failure channel carries no view at all, so no partially constructed view is
observable. -/
theorem c5_create_total_or_error (path : String) (buffer : RawDocument)
    (ct : cpu_type_t) (st : cpu_subtype_t) (mode : CpuSubTypeMatching)
    (minOS : Nat) :
    (∃ v, create path buffer ct st mode minOS = .ok v) ∨
    (∃ e, create path buffer ct st mode minOS = .error e ∧ e ≠ "") := by
  cases hpd : parseDocument buffer with
  | error e =>
    refine .inr ⟨e, ?_, parseDocument_error_ne hpd⟩
    unfold create
    simp only [hpd]
  | ok doc =>
    cases hr : resolve abiCompatTable doc ct st mode with
    | none =>
      refine .inr ⟨"no matching architecture", ?_, by decide⟩
      unfold create
      simp only [hpd, hr]
    | some s =>
      refine .inl ⟨mkView doc.fileType s minOS, ?_⟩
      unfold create
      simp only [hpd, hr]

/-- C6: the sniffer's verdict depends only on the buffer's magic marker and
never on its content (so malformed content can never make it fail); a
buffer without a supported magic yields `false`, never an error; and it
performs no validation beyond that signature — it accepts a buffer the
parser rejects. -/
theorem c6_sniffer_no_validation (path : String) (d : RawDocument) :
    (∀ s1 s2 : List RawSlice,
      isSupported path { tag := d.tag, slices := s1 } =
      isSupported path { tag := d.tag, slices := s2 }) ∧
    (d.tag ∉ supportedTags → isSupported path d = false) ∧
    (isSupported path emptyRawV1 = true ∧
      ∃ e, parseDocument emptyRawV1 = .error e) := by
  refine ⟨fun s1 s2 => rfl, ?_, rfl, "no slices in file", rfl⟩
  intro h
  unfold isSupported
  rw [List.contains_eq_any_beq]
  apply List.any_eq_false.mpr
  intro x hx
  simp only [beq_iff_eq]
  intro heq
  exact h (heq ▸ hx)

/-- Witness for C6: a buffer with an unrecognized magic marker is simply
unsupported. -/
theorem c6_sniffer_no_validation_witness :
    isSupported "/tmp/a.tbd" { tag := "junk", slices := [] } = false :=
  (c6_sniffer_no_validation "/tmp/a.tbd" { tag := "junk", slices := [] }).2.1
    (by decide)

/-!  The parser rejects malformed buffers (spec section 4.2).  -/

/-- An unsupported schema tag makes `tagFileType` fail. -/
theorem tagFileType_unsupported {tag : String} (h : tag ∉ supportedTags) :
    tagFileType tag = .error "unsupported file type" := by
  unfold tagFileType
  split_ifs with h1 h2
  · exact absurd (by rw [h1]; decide) h
  · exact absurd (by rw [h2]; decide) h
  · rfl

/-- An unknown platform key makes `parsePlatform` fail. -/
theorem parsePlatform_unknown {s : String} (h : s ∉ knownPlatformKeys) :
    parsePlatform s = .error "unknown platform value" := by
  unfold parsePlatform
  split_ifs with h1 h2 h3 h4 h5
  · exact absurd (by rw [h1]; decide) h
  · exact absurd (by rw [h2]; decide) h
  · exact absurd (by rw [h3]; decide) h
  · exact absurd (by rw [h4]; decide) h
  · exact absurd (by rw [h5]; decide) h
  · rfl

/-- An unknown Objective-C constraint key makes `parseObjCConstraint`
fail. -/
theorem parseObjCConstraint_unknown {s : String}
    (h : s ∉ knownObjCConstraintKeys) :
    parseObjCConstraint s = .error "unknown objc constraint value" := by
  unfold parseObjCConstraint
  split_ifs with h1 h2 h3 h4 h5
  · exact absurd (by rw [h1]; decide) h
  · exact absurd (by rw [h2]; decide) h
  · exact absurd (by rw [h3]; decide) h
  · exact absurd (by rw [h4]; decide) h
  · exact absurd (by rw [h5]; decide) h
  · rfl

/-- A malformed entry version makes `parseInstallNames` fail. -/
theorem parseInstallNames_fails {l : List RawInstallNameEntry}
    (h : ∃ en ∈ l, parseVersionString en.version = none) :
    ∃ e, parseInstallNames l = .error e := by
  induction l with
  | nil => simp at h
  | cons a rest ih =>
    cases hv : parseVersionString a.version with
    | none =>
      exact ⟨"malformed version string", by simp only [parseInstallNames, hv]⟩
    | some v =>
      rcases h with ⟨en, hen, hbad⟩
      rcases List.mem_cons.mp hen with rfl | hmem
      · rw [hbad] at hv; cases hv
      · obtain ⟨e, he⟩ := ih ⟨en, hmem, hbad⟩
        exact ⟨e, by simp only [parseInstallNames, hv, he]⟩

/-- Any of the per-slice defects (empty install name, malformed version
string, unknown platform or constraint key) makes `parseSlice` fail. -/
theorem parseSlice_fails {ft : FileType} {r : RawSlice}
    (h : r.installName = "" ∨
      parseVersionString r.currentVersion = none ∨
      parseVersionString r.compatibilityVersion = none ∨
      (∃ en ∈ r.installNames, parseVersionString en.version = none) ∨
      r.platform ∉ knownPlatformKeys ∨
      r.objcConstraint ∉ knownObjCConstraintKeys) :
    ∃ e, parseSlice ft r = .error e := by
  cases hp : parsePlatform r.platform with
  | error e2 => exact ⟨e2, by simp only [parseSlice, hp]⟩
  | ok p =>
    by_cases hname : r.installName = ""
    · exact ⟨"empty install name",
        by simp only [parseSlice, hp, if_pos hname]⟩
    · cases hv1 : parseVersionString r.currentVersion with
      | none =>
        exact ⟨"malformed version string",
          by simp only [parseSlice, hp, if_neg hname, hv1]⟩
      | some cur =>
        cases hv2 : parseVersionString r.compatibilityVersion with
        | none =>
          exact ⟨"malformed version string",
            by simp only [parseSlice, hp, if_neg hname, hv1, hv2]⟩
        | some compat =>
          cases hoc : parseObjCConstraint r.objcConstraint with
          | error e2 =>
            exact ⟨e2,
              by simp only [parseSlice, hp, if_neg hname, hv1, hv2, hoc]⟩
          | ok oc =>
            cases hfl : parseFlags ft r.flags with
            | error e2 =>
              exact ⟨e2, by
                simp only [parseSlice, hp, if_neg hname, hv1, hv2, hoc, hfl]⟩
            | ok pr =>
              obtain ⟨two, aes⟩ := pr
              by_cases hpar :
                  (ft == FileType.TBD_V1 && r.parentFrameworkName.isSome) = true
              · exact ⟨"unexpected key for this schema revision", by
                  simp only [parseSlice, hp, if_neg hname, hv1, hv2, hoc, hfl,
                    hpar, if_pos]⟩
              · cases hin : parseInstallNames r.installNames with
                | error e2 =>
                  exact ⟨e2, by
                    simp only [parseSlice, hp, if_neg hname, hv1, hv2, hoc,
                      hfl, if_neg hpar, hin]⟩
                | ok entries =>
                  exfalso
                  rcases h with h | h | h | h | h | h
                  · exact hname h
                  · rw [h] at hv1; cases hv1
                  · rw [h] at hv2; cases hv2
                  · obtain ⟨e, he⟩ := parseInstallNames_fails h
                    rw [he] at hin; cases hin
                  · rw [parsePlatform_unknown h] at hp; cases hp
                  · rw [parseObjCConstraint_unknown h] at hoc; cases hoc

/-- A failing slice makes `parseSlices` fail. -/
theorem parseSlices_fails {ft : FileType} {l : List RawSlice}
    (h : ∃ s ∈ l, ∃ e, parseSlice ft s = .error e) :
    ∃ e, parseSlices ft l = .error e := by
  induction l with
  | nil => simp at h
  | cons a rest ih =>
    cases hs : parseSlice ft a with
    | error e2 => exact ⟨e2, by simp only [parseSlices, hs]⟩
    | ok s =>
      rcases h with ⟨s0, hmem, e0, he0⟩
      rcases List.mem_cons.mp hmem with rfl | hmem2
      · rw [he0] at hs; cases hs
      · obtain ⟨e, he⟩ := ih ⟨s0, hmem2, e0, he0⟩
        exact ⟨e, by simp only [parseSlices, hs, he]⟩

/-- Two positions with the same architecture key refute the no-duplicate
check. -/
theorem not_nodup_of_dup {l : List RawSlice} {i j : Nat}
    (hi : i < l.length) (hj : j < l.length) (hij : i ≠ j)
    (harch : archKey (l.get ⟨i, hi⟩) = archKey (l.get ⟨j, hj⟩)) :
    ¬ (l.map archKey).Nodup := by
  intro hnd
  rw [List.nodup_iff_injective_get] at hnd
  have hi2 : i < (l.map archKey).length := by simpa using hi
  have hj2 : j < (l.map archKey).length := by simpa using hj
  have heq : (l.map archKey).get ⟨i, hi2⟩ = (l.map archKey).get ⟨j, hj2⟩ := by
    simp only [List.get_eq_getElem, List.getElem_map]
    simpa only [List.get_eq_getElem] using harch
  have hfin := hnd heq
  simp only [Fin.mk.injEq] at hfin
  exact hij hfin

/-- Unfolding of `parseDocument` once the tag is accepted. -/
theorem parseDocument_ok_tag {r : RawDocument} {ft : FileType}
    (ht : tagFileType r.tag = .ok ft) :
    parseDocument r =
      (if r.slices.isEmpty then .error "no slices in file"
       else if (r.slices.map archKey).Nodup then
         match parseSlices ft r.slices with
         | .error e => .error e
         | .ok slices => .ok { fileType := ft, slices := slices }
       else .error "duplicate slice for the same architecture") := by
  unfold parseDocument
  simp only [ht]

/-- C7: the parser fails — rather than substituting a default — on every
buffer with an unsupported schema version, duplicate slices for the same
platform+architecture pair, an empty install name, a malformed version
string, or an unknown platform / Objective-C-constraint enum key. -/
theorem c7_parser_rejects_malformed (r : RawDocument)
    (hbad : r.tag ∉ supportedTags ∨
      (∃ i j, ∃ hi : i < r.slices.length, ∃ hj : j < r.slices.length,
        i ≠ j ∧
        (r.slices.get ⟨i, hi⟩).platform = (r.slices.get ⟨j, hj⟩).platform ∧
        archKey (r.slices.get ⟨i, hi⟩) = archKey (r.slices.get ⟨j, hj⟩)) ∨
      (∃ s ∈ r.slices, s.installName = "" ∨
        parseVersionString s.currentVersion = none ∨
        parseVersionString s.compatibilityVersion = none ∨
        (∃ en ∈ s.installNames, parseVersionString en.version = none) ∨
        s.platform ∉ knownPlatformKeys ∨
        s.objcConstraint ∉ knownObjCConstraintKeys)) :
    ∃ e, parseDocument r = .error e := by
  cases ht : tagFileType r.tag with
  | error e => exact ⟨e, by unfold parseDocument; simp only [ht]⟩
  | ok ft =>
    rw [parseDocument_ok_tag ht]
    rcases hbad with hbad | hdup | hslice
    · rw [tagFileType_unsupported hbad] at ht; cases ht
    · obtain ⟨i, j, hi, hj, hij, hplat, harch⟩ := hdup
      have hne : r.slices ≠ [] :=
        List.ne_nil_of_length_pos (lt_of_le_of_lt (Nat.zero_le i) hi)
      rw [if_neg (by simpa using hne),
        if_neg (not_nodup_of_dup hi hj hij harch)]
      exact ⟨_, rfl⟩
    · obtain ⟨s, hmem, hdef⟩ := hslice
      have hne : r.slices ≠ [] := List.ne_nil_of_mem hmem
      rw [if_neg (by simpa using hne)]
      by_cases hnd : (r.slices.map archKey).Nodup
      · rw [if_pos hnd]
        obtain ⟨e, he⟩ := parseSlices_fails ⟨s, hmem, parseSlice_fails hdef⟩
        rw [he]
        exact ⟨e, rfl⟩
      · rw [if_neg hnd]
        exact ⟨_, rfl⟩

/-!  Round-trip of the decimal and version renderers (spec section 8).  -/

/-- The digit value of a rendered digit character. -/
theorem digitVal_digitChar {d : Nat} (h : d < 10) :
    digitVal (digitChar d) = d := by
  interval_cases d <;> decide

/-- Rendered digit characters are digit characters. -/
theorem isDigitChar_digitChar {d : Nat} (h : d < 10) :
    isDigitChar (digitChar d) = true := by
  interval_cases d <;> decide

/-- With enough fuel, the rendered digit string consists of digit
characters and evaluates back to the rendered number. -/
theorem revDigitsFuel_spec :
    ∀ fuel n, n ≤ fuel →
      (∀ c ∈ revDigitsFuel fuel n, isDigitChar c = true) ∧
      revDigitsVal (revDigitsFuel fuel n) = n := by
  intro fuel
  induction fuel with
  | zero =>
    intro n hn
    have h0 : n = 0 := Nat.le_zero.mp hn
    subst h0
    exact ⟨fun c hc => absurd hc (by simp [revDigitsFuel]), rfl⟩
  | succ fuel ih =>
    intro n hn
    by_cases h : n = 0
    · subst h
      exact ⟨fun c hc => absurd hc (by simp [revDigitsFuel]), rfl⟩
    · have hdiv : n / 10 ≤ fuel := by
        have := Nat.div_lt_self (Nat.pos_of_ne_zero h) (by decide : 1 < 10)
        omega
      obtain ⟨ih1, ih2⟩ := ih (n / 10) hdiv
      rw [revDigitsFuel, if_neg h]
      constructor
      · intro c hc
        rcases List.mem_cons.mp hc with rfl | hc2
        · exact isDigitChar_digitChar (Nat.mod_lt n (by decide))
        · exact ih1 c hc2
      · show digitVal (digitChar (n % 10)) +
            10 * revDigitsVal (revDigitsFuel fuel (n / 10)) = n
        rw [ih2, digitVal_digitChar (Nat.mod_lt n (by decide))]
        omega

/-- Digit characters of `natToRevDigits`. -/
theorem natToRevDigits_digits (n : Nat) :
    ∀ c ∈ natToRevDigits n, isDigitChar c = true :=
  (revDigitsFuel_spec n n (Nat.le_refl n)).1

/-- Value of `natToRevDigits`. -/
theorem revDigitsVal_natToRevDigits (n : Nat) :
    revDigitsVal (natToRevDigits n) = n :=
  (revDigitsFuel_spec n n (Nat.le_refl n)).2

/-- For a nonzero number the rendered digit string is non-empty. -/
theorem natToRevDigits_ne_nil {n : Nat} (h : n ≠ 0) :
    natToRevDigits n ≠ [] := by
  unfold natToRevDigits
  cases n with
  | zero => exact absurd rfl h
  | succ m =>
    rw [revDigitsFuel, if_neg h]
    simp

/-- Reading most-significant-first digits is reading the reversal of
least-significant-first digits. -/
theorem digitsToNat_reverse (l : List Char) :
    digitsToNat l.reverse = revDigitsVal l := by
  induction l with
  | nil => rfl
  | cons c r ih =>
    rw [List.reverse_cons]
    show List.foldl (fun acc c => acc * 10 + digitVal c) 0 (r.reverse ++ [c]) =
      digitVal c + 10 * revDigitsVal r
    rw [List.foldl_append]
    show (digitsToNat r.reverse) * 10 + digitVal c = _
    rw [ih]
    omega

/-- Every character of a rendered decimal numeral is a digit. -/
theorem renderNat_digits (n : Nat) :
    ∀ c ∈ (renderNat n).toList, isDigitChar c = true := by
  by_cases h : n = 0
  · subst h
    decide
  · rw [renderNat, if_neg h]
    intro c hc
    have hc2 : c ∈ natToRevDigits n := by
      rw [show (String.mk (natToRevDigits n).reverse).toList =
        (natToRevDigits n).reverse from rfl] at hc
      exact List.mem_reverse.mp hc
    exact natToRevDigits_digits n c hc2

/-- Parsing a rendered decimal numeral gives the number back. -/
theorem parseDecimal_renderNat (n : Nat) :
    parseDecimal (renderNat n).toList = some n := by
  by_cases h : n = 0
  · subst h
    decide
  · rw [renderNat, if_neg h]
    rw [show (String.mk (natToRevDigits n).reverse).toList =
      (natToRevDigits n).reverse from rfl]
    unfold parseDecimal
    rw [if_neg (by simp [natToRevDigits_ne_nil h]),
      if_pos (List.all_eq_true.mpr
        (fun c hc => natToRevDigits_digits n c (List.mem_reverse.mp hc)))]
    rw [digitsToNat_reverse, revDigitsVal_natToRevDigits]

/-- Parsing a rendered decimal numeral within its bound gives the number
back. -/
theorem parseComponent_renderNat {n bound : Nat} (h : n ≤ bound) :
    parseComponent (renderNat n).toList bound = some n := by
  simp only [parseComponent, parseDecimal_renderNat, h, if_true]

/-- The dot separator is not a digit, hence absent from rendered
numerals. -/
theorem renderNat_no_dot (n : Nat) : '.' ∉ (renderNat n).toList := by
  intro hc
  exact absurd (renderNat_digits n '.' hc) (by decide)

/-- Unpacking and repacking a 32-bit version is the identity. -/
theorem packVersion_unpack {v : Nat} (h : v < 4294967296) :
    packVersion (versionMajor v) (versionMinor v) (versionPatch v) = v := by
  unfold packVersion versionMajor versionMinor versionPatch
  omega

/-- The major component fits its field. -/
theorem versionMajor_le (v : Nat) : versionMajor v ≤ 65535 := by
  unfold versionMajor
  omega

/-- The minor component fits its field. -/
theorem versionMinor_le (v : Nat) : versionMinor v ≤ 255 := by
  unfold versionMinor
  omega

/-- The patch component fits its field. -/
theorem versionPatch_le (v : Nat) : versionPatch v ≤ 255 := by
  unfold versionPatch
  omega

/-- Parsing a rendered version string gives the packed version back. -/
theorem parseVersionString_renderVersion {v : Nat} (h : v < 4294967296) :
    parseVersionString (renderVersion v) = some v := by
  unfold parseVersionString renderVersion
  rw [show (String.mk (List.intercalate ['.']
      [(renderNat (versionMajor v)).toList,
       (renderNat (versionMinor v)).toList,
       (renderNat (versionPatch v)).toList])).toList =
    List.intercalate ['.']
      [(renderNat (versionMajor v)).toList,
       (renderNat (versionMinor v)).toList,
       (renderNat (versionPatch v)).toList] from rfl]
  rw [List.splitOn_intercalate
    [(renderNat (versionMajor v)).toList,
     (renderNat (versionMinor v)).toList,
     (renderNat (versionPatch v)).toList] '.'
    (by
      intro l hl
      simp only [List.mem_cons, List.not_mem_nil, or_false] at hl
      rcases hl with rfl | rfl | rfl <;> exact renderNat_no_dot _)
    (by simp)]
  simp only [parseComponent_renderNat (versionMajor_le v),
    parseComponent_renderNat (versionMinor_le v),
    parseComponent_renderNat (versionPatch_le v)]
  rw [packVersion_unpack h]

/-- Witness for C7: the concrete buffer whose single slice has an empty
install name is rejected. -/
theorem c7_parser_rejects_malformed_witness :
    ∃ e, parseDocument badRawDoc = .error e :=
  c7_parser_rejects_malformed badRawDoc
    (Or.inr (Or.inr ⟨{ sampleRawSlice with installName := "" }, by decide,
      Or.inl rfl⟩))

/-!  Round-trip of the document serializer (spec section 8).  -/

/-- Parsing a serialized platform key gives the platform back. -/
theorem parsePlatform_platformKey (p : Platform) :
    parsePlatform (platformKey p) = .ok p := by
  cases p <;> rfl

/-- Parsing a serialized Objective-C constraint key gives the constraint
back. -/
theorem parseObjCConstraint_objcConstraintKey (oc : ObjCConstraint) :
    parseObjCConstraint (objcConstraintKey oc) = .ok oc := by
  cases oc <;> rfl

/-- Parsing a serialized schema tag gives the file type back. -/
theorem tagFileType_fileTypeTag {ft : FileType}
    (h : ft = .TBD_V1 ∨ ft = .TBD_V2) :
    tagFileType (fileTypeTag ft) = .ok ft := by
  rcases h with rfl | rfl <;> rfl

/-- Parsing serialized flags gives the two booleans back, in either
supported schema revision. -/
theorem parseFlags_serializeFlags {ft : FileType}
    (hft : ft = .TBD_V1 ∨ ft = .TBD_V2) (two aes : Bool) :
    parseFlags ft (serializeFlags ft two aes) = .ok (two, aes) := by
  rcases hft with rfl | rfl <;> cases two <;> cases aes <;> rfl

/-- Parsing serialized install-name entries gives the entries back. -/
theorem parseInstallNames_roundtrip (l : List InstallNameEntry)
    (h : ∀ e ∈ l, e.version < 4294967296) :
    parseInstallNames (l.map serializeInstallNameEntry) = .ok l := by
  induction l with
  | nil => rfl
  | cons a rest ih =>
    have hv : parseVersionString (serializeInstallNameEntry a).version =
        some a.version :=
      parseVersionString_renderVersion (h a (by simp))
    have htl := ih (fun e he => h e (List.mem_cons_of_mem _ he))
    show parseInstallNames
      (serializeInstallNameEntry a :: rest.map serializeInstallNameEntry) = _
    simp only [parseInstallNames, hv, htl]
    rfl

/-- Parsing a serialized slice gives the slice back. -/
theorem parseSlice_roundtrip {ft : FileType} (s : Slice)
    (hft : ft = .TBD_V1 ∨ ft = .TBD_V2) (h : WellFormedSlice ft s) :
    parseSlice ft (serializeSlice ft s) = .ok s := by
  obtain ⟨hname, hcur, hcompat, hentries, hpar⟩ := h
  have hparen :
      (ft == FileType.TBD_V1 && (s.parentFrameworkName).isSome) = false := by
    rcases hft with rfl | rfl
    · rw [hpar rfl]
      rfl
    · rfl
  simp only [parseSlice, serializeSlice, parsePlatform_platformKey, hname,
    parseVersionString_renderVersion hcur,
    parseVersionString_renderVersion hcompat,
    parseObjCConstraint_objcConstraintKey,
    parseFlags_serializeFlags hft, hparen,
    parseInstallNames_roundtrip s.installNames hentries,
    if_false, Bool.false_eq_true, if_neg]

/-- Parsing serialized slices gives the slices back. -/
theorem parseSlices_roundtrip {ft : FileType} (l : List Slice)
    (hft : ft = .TBD_V1 ∨ ft = .TBD_V2)
    (h : ∀ s ∈ l, WellFormedSlice ft s) :
    parseSlices ft (l.map (serializeSlice ft)) = .ok l := by
  induction l with
  | nil => rfl
  | cons a rest ih =>
    show parseSlices ft (serializeSlice ft a :: rest.map (serializeSlice ft)) = _
    simp only [parseSlices, parseSlice_roundtrip a hft (h a (by simp)),
      ih (fun s hs => h s (List.mem_cons_of_mem _ hs))]

/-- C9: serializing a well-formed document and parsing the serialized form
yields the document back, field-wise equal (here: equal outright, which is
stronger than equality modulo insertion order). -/
theorem c9_round_trip (d : Document) (h : WellFormedDocument d) :
    parseDocument (serializeDocument d) = .ok d := by
  obtain ⟨hft, hne, hnodup, hslices⟩ := h
  have htag : tagFileType (serializeDocument d).tag = .ok d.fileType :=
    tagFileType_fileTypeTag hft
  rw [parseDocument_ok_tag htag]
  have hcomp : archKey ∘ serializeSlice d.fileType =
      (fun s : Slice => ((s.cpuType, s.cpuSubType) : Int × Int)) :=
    funext (fun s => rfl)
  have hmap : (serializeDocument d).slices.map archKey =
      d.slices.map (fun s => ((s.cpuType, s.cpuSubType) : Int × Int)) := by
    show (d.slices.map (serializeSlice d.fileType)).map archKey = _
    rw [List.map_map, hcomp]
  have hmapne : (serializeDocument d).slices ≠ [] := by
    show d.slices.map (serializeSlice d.fileType) ≠ []
    simpa using hne
  rw [if_neg (by simpa using hmapne), if_pos (by rw [hmap]; exact hnodup)]
  have hps : parseSlices d.fileType (serializeDocument d).slices =
      .ok d.slices := parseSlices_roundtrip d.slices hft hslices
  rw [hps]

/-- Witness for C9: the concrete two-slice document survives the
serialize-parse round trip unchanged. -/
theorem c9_round_trip_witness :
    parseDocument (serializeDocument twoSliceDoc) = .ok twoSliceDoc :=
  c9_round_trip twoSliceDoc (by decide)

end Tapi
